import Mathlib

/-!
Shallow embedding of the two scripts of this repository and proofs about the
frozen claims.

Sources:
* `src/CurrentIntegration/STM312currentintegration.py` — the `IntegrateCurrent`
  class: parameter parsing (`__init__`, lines 34-76), coverage conversions
  (lines 78-100) and `integrate` (lines 102-145).
* `src/ParticleOverlap/overlaparea.py` — the overlap simulator: the relaxation
  sweep block repeated verbatim (lines 52-131) and the area-loss accounting
  (lines 134-180).

Python floats are modelled as real numbers.  The `Z` height array is created
by `np.full((N), 1)`, an int64 array, so heights are modelled as integers and
assignments of float expressions into the array truncate toward zero
(`pyTrunc`).  Strings are modelled as `List Char`, `float(...)` by a rational
parser, and fallible constructs by `Option`.
-/

/-- Model kind accepted by the `MODEL` parameter (`'NP'` or `'SA'`). -/
inductive MType
  | NP
  | SA
deriving DecidableEq

/-- Python `str.split(sep)`: splits at every occurrence of `sep`, keeping empty
pieces; splitting the empty string gives `[[]]`. -/
def pySplit (sep : Char) : List Char → List (List Char)
  | [] => [[]]
  | c :: rest =>
    match pySplit sep rest with
    | h :: t => if c = sep then [] :: h :: t else (c :: h) :: t
    | [] => [[c]]

/-- Python `str.strip(c)` for a single character: removes leading and trailing
occurrences of `c`. -/
def stripChar (c : Char) (s : List Char) : List Char :=
  ((s.dropWhile (· == c)).reverse.dropWhile (· == c)).reverse

/-- Python `str.strip('[]')`: removes leading and trailing `'['` and `']'`. -/
def stripBrack (s : List Char) : List Char :=
  ((s.dropWhile (fun c => c == '[' || c == ']')).reverse.dropWhile
    (fun c => c == '[' || c == ']')).reverse

/-- Numeric value of a list of decimal digit characters. -/
def natOfDigits (l : List Char) : ℕ :=
  l.foldl (fun acc c => acc * 10 + (c.toNat - 48)) 0

/-- All characters are decimal digits. -/
def allDigits (l : List Char) : Bool :=
  l.all Char.isDigit

/-- Unsigned mantissa of a Python float literal: `digits`, `digits.digits`,
`digits.` or `.digits` (at least one digit in total). -/
def parseUnsignedMantissa (s : List Char) : Option ℚ :=
  match pySplit '.' s with
  | [ip] => if (!ip.isEmpty) && allDigits ip then some (natOfDigits ip) else none
  | [ip, fp] =>
    if (allDigits ip && allDigits fp) && !(ip.isEmpty && fp.isEmpty) then
      some ((natOfDigits ip : ℚ) + (natOfDigits fp : ℚ) / (10 : ℚ) ^ fp.length)
    else none
  | _ => none

/-- Signed mantissa of a Python float literal. -/
def parseMantissa (s : List Char) : Option ℚ :=
  match s with
  | '+' :: r => parseUnsignedMantissa r
  | '-' :: r => (parseUnsignedMantissa r).map (fun v => -v)
  | r => parseUnsignedMantissa r

/-- Signed exponent of a Python float literal (nonempty digit string). -/
def parseExponent (s : List Char) : Option ℤ :=
  match s with
  | '+' :: r => if (!r.isEmpty) && allDigits r then some (natOfDigits r : ℤ) else none
  | '-' :: r => if (!r.isEmpty) && allDigits r then some (-(natOfDigits r : ℤ)) else none
  | r => if (!r.isEmpty) && allDigits r then some (natOfDigits r : ℤ) else none

/-- Model of Python `float(value)`, returning `none` where Python raises
`ValueError`.  Covers the grammar `[+-]? digits [. digits]? ([eE] [+-]? digits)?`
used by the repository's parameter strings (the exotic `inf`/`nan`/underscore
forms are not modelled). -/
def parseFloat (s : List Char) : Option ℚ :=
  match pySplit 'e' (s.map Char.toLower) with
  | [m] => parseMantissa m
  | [m, ex] =>
    match parseMantissa m, parseExponent ex with
    | some v, some e2 => some (v * (10 : ℚ) ^ e2)
    | _, _ => none
  | _ => none

/-- Source `parse_bool_string` (lines 5-7):
`(string[0].upper() == 'T') or (string.upper() == 'ON') or (string[0].upper() == 'Y')`;
`none` models the `IndexError` raised on an empty string. -/
def parse_bool_string (s : List Char) : Option Bool :=
  match s with
  | [] => none
  | c :: _ =>
    some ((c.toUpper == 'T') || (s.map Char.toUpper == ['O', 'N']) || (c.toUpper == 'Y'))

/-- Default target list installed when `TARGET` is not positive (line 65). -/
def targetDefault : List ℚ := [5, 10, 15, 20, 25, 30, 40, 50, 75, 100, 150, 200, 300]

/-- Attributes assigned by `IntegrateCurrent.__init__` (lines 34-71).  Fields
that Python leaves unassigned until their parameter appears are `Option`s
(reading them before assignment would raise `AttributeError`). -/
structure ParsedConfig where
  model : Option MType := none
  debugging : Bool := false
  target : Option (List ℝ) := none
  time : List ℝ := []
  leak_current : Option ℝ := none
  area_particle : Option ℝ := none
  area_aperture : Option ℝ := none
  sa_density : Option ℝ := none

/-- Handling of one `key=value` item of the parameter string (lines 43-71).
`none` models an uncaught exception: unpacking `item.split('=')` into two
variables fails (line 44), or `float(value)`/`parse_bool_string(value)` raises.
Unrecognized keys and bad `MODEL` values only print and leave the
configuration unchanged. -/
noncomputable def applyItem (cfg : ParsedConfig) (item : List Char) : Option ParsedConfig :=
  match pySplit '=' item with
  | [param, value] =>
    if param = "LEAK_CURRENT".toList then
      (parseFloat value).map (fun v => { cfg with leak_current := some (v : ℝ) })
    else if param = "PARTICLE_DIAMETER".toList then
      (parseFloat value).map (fun v =>
        { cfg with area_particle := some (Real.pi * ((v : ℝ) / 2 * 1e-9) ^ 2) })
    else if param = "APERTURE_DIAMETER".toList then
      (parseFloat value).map (fun v =>
        { cfg with area_aperture := some (Real.pi * ((v : ℝ) / 2 * 1e-3) ^ 2) })
    else if param = "DEBUG".toList then
      (parse_bool_string value).map (fun b => { cfg with debugging := b })
    else if param = "MODEL".toList then
      if value = "NP".toList then some { cfg with model := some MType.NP }
      else if value = "SA".toList then some { cfg with model := some MType.SA }
      else some cfg
    else if param = "SA_DENSITY".toList then
      (parseFloat value).map (fun v => { cfg with sa_density := some (v : ℝ) })
    else if param = "TARGET".toList then
      (parseFloat value).map (fun v =>
        let ts : List ℝ := if 0 < v then [(v : ℝ)] else targetDefault.map (fun q => (q : ℝ))
        { cfg with target := some ts })
    else if param = "TIME".toList then
      let v := stripBrack value
      if v.isEmpty then some cfg
      else ((pySplit ',' v).mapM parseFloat).map (fun vs =>
        { cfg with time := vs.map (fun q => (q : ℝ)) })
    else some cfg
  | _ => none

/-- Construction of `IntegrateCurrent` from a parameter string (lines 34-71):
strip `';'`, split on `';'`, then process each item in order; `none` models a
raised exception. -/
noncomputable def initIC (parameter_string : List Char) : Option ParsedConfig :=
  (pySplit ';' (stripChar ';' parameter_string)).foldlM applyItem {}

/-- An item of the parameter string that `applyItem` handles without raising:
it splits on `'='` into exactly two parts, and the value parses as a float for
the numeric keys, is nonempty for `DEBUG`, and is empty or a comma-separated
float list for `TIME`. -/
def wellFormedItem (item : List Char) : Bool :=
  match pySplit '=' item with
  | [param, value] =>
    if param = "LEAK_CURRENT".toList || param = "PARTICLE_DIAMETER".toList ||
        param = "APERTURE_DIAMETER".toList || param = "SA_DENSITY".toList ||
        param = "TARGET".toList then
      (parseFloat value).isSome
    else if param = "DEBUG".toList then !value.isEmpty
    else if param = "TIME".toList then
      (stripBrack value).isEmpty || ((pySplit ',' (stripBrack value)).all
        fun p => (parseFloat p).isSome)
    else true
  | _ => false

noncomputable section

/-! ### Overlap simulator (`src/ParticleOverlap/overlaparea.py`) -/

/-- Particle diameter in nm, `Psize = 3.8` (line 8). -/
def Psize : ℝ := 3.8

/-- Truncation toward zero, the conversion applied when a float is assigned
into the int64 array `Z` (and by Python `int(...)`). -/
def pyTrunc (x : ℝ) : ℤ :=
  if 0 ≤ x then ⌊x⌋ else -⌊-x⌋

/-- Squared 3D distance between particles `i` and `g`:
`(Positions[x,i]-Positions[x,g])**2 + (Positions[y,i]-Positions[y,g])**2 + (Z[i]-Z[g])**2`
(line 54 and analogues). -/
def dSq (P : List (ℝ × ℝ)) (Z : List ℤ) (i g : ℕ) : ℝ :=
  ((P.getD i (0, 0)).1 - (P.getD g (0, 0)).1) ^ 2 +
    ((P.getD i (0, 0)).2 - (P.getD g (0, 0)).2) ^ 2 +
    ((Z.getD i 0 : ℝ) - (Z.getD g 0 : ℝ)) ^ 2

/-- The vector `Distance1 = np.sqrt(...)` of distances from particle `i` to all
particles, for the current heights `Z`. -/
def distVec (P : List (ℝ × ℝ)) (Z : List ℤ) (i : ℕ) : List ℝ :=
  (List.range P.length).map (fun g => Real.sqrt (dSq P Z i g))

/-- Body of the inner loop `for g in index[0]` of a relaxation sweep
(lines 57-62).  The state is `(Z, Distance1, args)` where `args` records the
argument of each `np.sqrt` call of the stacking update (for the NaN-safety
analysis).  For `g ≠ i`: if `Z[g] != Z[i]` then `Z[g] = Z[i]` and `Distance1`
is recomputed; then `Z[g] = Z[g] + np.sqrt((Psize*10)**2 - Distance1[g]**2)`,
truncated by the int64 array assignment.  `Real.sqrt` of a negative argument
is `0` here, where NumPy would produce NaN; the safety theorem shows the
argument is always positive. -/
def innerStep (P : List (ℝ × ℝ)) (i : ℕ) (s : List ℤ × List ℝ × List ℝ) (g : ℕ) :
    List ℤ × List ℝ × List ℝ :=
  if g = i then s
  else
    let Z := s.1
    let Z1 := if Z.getD g 0 ≠ Z.getD i 0 then Z.set g (Z.getD i 0) else Z
    let D1 := if Z.getD g 0 ≠ Z.getD i 0 then distVec P Z1 i else s.2.1
    let a := (Psize * 10) ^ 2 - (D1.getD g 0) ^ 2
    (Z1.set g (pyTrunc ((Z1.getD g 0 : ℝ) + Real.sqrt a)), D1, s.2.2 ++ [a])

/-- One iteration of `for i, a in enumerate(Positions[0])` inside a relaxation
sweep (lines 53-62): compute `Distance1`, select `index = np.where(Distance1 < 35)`
once, then run the inner loop over the selected indices in ascending order. -/
def innerLoop (P : List (ℝ × ℝ)) (i : ℕ) (Z : List ℤ) : List ℤ × List ℝ × List ℝ :=
  let D0 := distVec P Z i
  let idx := (List.range P.length).filter (fun g => decide (D0.getD g 0 < 35))
  idx.foldl (innerStep P i) (Z, D0, [])

/-- One full relaxation sweep over all particles (one copy of the repeated
block, lines 53-62). -/
def sweepOnce (P : List (ℝ × ℝ)) (Z : List ℤ) : List ℤ :=
  (List.range P.length).foldl (fun Z i => (innerLoop P i Z).1) Z

/-- Initial heights `Z = np.full((N), 1)` (line 51): an integer array of ones. -/
def initZ (n : ℕ) : List ℤ :=
  List.replicate n 1

/-- Number of relaxation sweeps the script performs: the sweep block is
copy-pasted verbatim this many times (lines 52-131) before the area-loss
accounting begins at line 134. -/
def sweepCount : ℕ := 8

/-- The overlap resolver: the literal sequence of copy-pasted identical sweep
blocks applied to the initial heights (lines 51-131). -/
def resolveZ (P : List (ℝ × ℝ)) : List ℤ :=
  sweepOnce P (sweepOnce P (sweepOnce P (sweepOnce P (sweepOnce P (sweepOnce P
    (sweepOnce P (sweepOnce P (initZ P.length))))))))

/-- Single-particle surface area `SApar = 4*math.pi*(3.8/2)**2` (line 22). -/
def SApar : ℝ := 4 * Real.pi * (3.8 / 2) ^ 2

/-- Area loss attributed to particle `i` in the accounting loop
(lines 140-170): `8.4` per other particle within distance `Psize*10+5`, plus
`12` if `Z[i] < 5`, the total capped at `SApar`. -/
def lossOf (P : List (ℝ × ℝ)) (Z : List ℤ) (i : ℕ) : ℝ :=
  let D := distVec P Z i
  let olapsum : ℝ := 8.4 *
    (((List.range P.length).filter
      (fun b => decide (D.getD b 0 < Psize * 10 + 5) && !(b = i))).length : ℝ)
  let btomsum : ℝ := if Z.getD i 0 < 5 then 12 else 0
  let sumloss := olapsum + btomsum
  if SApar ≤ sumloss then SApar else sumloss

/-- Total lost area `Area = np.sum(sumlosses)` (line 174). -/
def lostArea (P : List (ℝ × ℝ)) (Z : List ℤ) : ℝ :=
  ((List.range P.length).map (lossOf P Z)).sum

/-- Total available area for `n` simulated particles; the source fixes
`N = 2000` and writes `SAtotal = 2000*SApar` (line 23). -/
def SAtotal (n : ℕ) : ℝ :=
  (n : ℝ) * SApar

/-- Coverage ratio `Ratio = (SAtotal-Area)/SAtotal` (line 176). -/
def ratioOf (P : List (ℝ × ℝ)) (Z : List ℤ) : ℝ :=
  (SAtotal P.length - lostArea P Z) / SAtotal P.length

/-! ### Current integrator (`src/CurrentIntegration/STM312currentintegration.py`) -/

/-- State of a configured `IntegrateCurrent` object as used by `integrate`:
the attributes set in `__init__` together with the stored measurement `data`
(list of `(time, current)` samples). -/
structure ICState where
  model : Option MType
  area_particle : ℝ
  area_aperture : ℝ
  leak_current : ℝ
  target : List ℝ
  time : List ℝ
  data : List (ℝ × ℝ)

/-- `convert_coverage_to_number` (lines 78-88): `none` models the printed
message and `None` result for a missing or `SA` model. -/
def convert_coverage_to_number (s : ICState) (coverage : ℝ) : Option ℝ :=
  match s.model with
  | none => none
  | some MType.SA => none
  | some MType.NP => some (coverage / 100 * s.area_aperture / s.area_particle)

/-- `convert_number_to_coverage` (lines 90-100). -/
def convert_number_to_coverage (s : ICState) (number : ℝ) : Option ℝ :=
  match s.model with
  | none => none
  | some MType.SA => none
  | some MType.NP => some (number * 100 / s.area_aperture * s.area_particle)

/-- Elementary charge `e = 1.602e-19` (line 114). -/
def elemCharge : ℝ := 1.602e-19

/-- The stored data after the optional time-window restriction (lines 109-111):
when `self.time` is nonempty the data is filtered to
`time[0] <= t` and then `t <= time[1]`.  A `time` list with fewer than two
entries reads the missing bound as `0` where Python would raise `IndexError`;
the claims only use empty or two-element windows. -/
def windowedData (s : ICState) : List (ℝ × ℝ) :=
  if s.time.isEmpty then s.data
  else ((s.data.filter (fun p => decide (s.time.getD 0 0 ≤ p.1))).filter
    (fun p => decide (p.1 ≤ s.time.getD 1 0)))

/-- `net_current = np.abs(self.data[:, 1] + leak_current)` (line 115), over the
windowed data. -/
def netCurrent (s : ICState) : List ℝ :=
  (windowedData s).map (fun p => |p.2 + s.leak_current|)

/-- `integral = np.sum(net_current[1:] * np.diff(self.data[:, 0]))/e`
(line 116). -/
def integralOf (s : ICState) : ℝ :=
  (List.zipWith (fun a b => a * b) (netCurrent s).tail
    (List.zipWith (fun a b => a - b) ((windowedData s).map Prod.fst).tail
      ((windowedData s).map Prod.fst))).sum / elemCharge

/-- Python slice `l[-n:]`. -/
def lastN (n : ℕ) (l : List ℝ) : List ℝ :=
  l.drop (l.length - n)

/-- `np.average` of a list; the empty case is modelled as `0` (division by the
zero length) where NumPy produces NaN. -/
def pyAverage (l : List ℝ) : ℝ :=
  l.sum / (l.length : ℝ)

/-- Deposition rate (lines 118-119): average of the last 100 net-current
samples above the `1e-13` noise floor, divided by `e`. -/
def depRateOf (s : ICState) : ℝ :=
  pyAverage (lastN 100 ((netCurrent s).filter (fun c => decide ((1e-13 : ℝ) < c)))) /
    elemCharge

/-- `present_coverage = self.convert_number_to_coverage(integral)` (line 122). -/
def presentCoverageOf (s : ICState) : Option ℝ :=
  convert_number_to_coverage s (integralOf s)

/-- Target-selection loop (lines 123-128): the first target at or above the
present coverage, else the last target.  An empty target list is modelled as
`0` where Python would raise `NameError`. -/
def selectTarget (ts : List ℝ) (present : ℝ) : ℝ :=
  match ts.find? (fun t => decide (present ≤ t)) with
  | some t => t
  | none => ts.getLastD 0

/-- `target_number = self.convert_coverage_to_number(target_coverage)`
(line 129); `none` models the crash of the comparison loop when
`present_coverage` is `None`. -/
def targetNumberOf (s : ICState) : Option ℝ :=
  match presentCoverageOf s with
  | none => none
  | some pc => convert_coverage_to_number s (selectTarget s.target pc)

/-- Outcome printed by the tail of `integrate` (lines 131-145): either the
"already exceeded" message with the target and present coverage, or the
remaining-time estimate; `error` models the `TypeError` raised when the model
yields `None` values. -/
inductive Report
  | error
  | exceeded (targetCov presentCov : ℝ)
  | timeEstimate (targetCov : ℝ) (hr mn sc : ℤ)

/-- Whether a report is the "already exceeded" message. -/
def Report.isExceeded : Report → Bool
  | Report.exceeded _ _ => true
  | _ => false

/-- The report computed by `integrate` (lines 121-145): the `if` on line 132
uses the strict comparison `target_number < integral`; otherwise the remaining
time `(target_number - integral)/dep_rate` is decomposed into hours, minutes
and seconds by `int(...)` truncations (lines 140-144). -/
def reportOf (s : ICState) : Report :=
  match presentCoverageOf s with
  | none => Report.error
  | some pc =>
    let tc := selectTarget s.target pc
    match convert_coverage_to_number s tc with
    | none => Report.error
    | some tn =>
      if tn < integralOf s then Report.exceeded tc pc
      else
        let tl := (tn - integralOf s) / depRateOf s
        let hr := pyTrunc (tl / 3600)
        let mn := pyTrunc ((tl - (hr : ℝ) * 3600) / 60)
        let sc := pyTrunc (tl - (hr : ℝ) * 3600 - (mn : ℝ) * 60)
        Report.timeEstimate tc hr mn sc

/-- Result of one call of `integrate` (lines 102-145): the stored data after
the window restriction (the method reassigns `self.data`), the integral, and
the printed report. -/
structure IntegrateResult where
  newData : List (ℝ × ℝ)
  integral : ℝ
  report : Report

/-- `IntegrateCurrent.integrate` (lines 102-145). -/
def integrate (s : ICState) : IntegrateResult :=
  { newData := windowedData s
    integral := integralOf s
    report := reportOf s }

/-- Concrete `NP` configuration whose integral exactly equals its particle
count goal: two samples of `1e-3` A over `8.01e-16` s give
`1e-3 * 8.01e-16 / 1.602e-19 = 5` particles, while the target list `[5 %]`
converts to `5 / 100 * 100 / 1 = 5` particles. -/
def stateC5 : ICState :=
  ⟨some MType.NP, 1, 100, 0, [5], [], [((0 : ℝ), (1e-3 : ℝ)), (8.01e-16, 1e-3)]⟩

/-- Variant of `stateC5` whose integral is `10`, strictly above the goal. -/
def stateC5w : ICState :=
  ⟨some MType.NP, 1, 100, 0, [5], [], [((0 : ℝ), (1e-3 : ℝ)), (1.602e-15, 1e-3)]⟩

/-- Constant-current signal sampled on a uniform time grid: `n` samples
`(t0 + k*dt, c)`. -/
def uniformGrid (t0 dt c : ℝ) (n : ℕ) : List (ℝ × ℝ) :=
  (List.range n).map (fun k : ℕ => (t0 + (k : ℝ) * dt, c))

end

/-! ### Claim C4: number of relaxation sweeps -/

/-- Claim C4 (corrected): the Overlap Resolver performs exactly `sweepCount`
identical relaxation sweeps — the same sweep function iterated — on the
initial heights before area-loss accounting begins, and `sweepCount` is `8`,
not the `7` stated in the specification. -/
theorem resolver_is_eight_sweeps :
    sweepCount = 8 ∧
      ∀ P : List (ℝ × ℝ), resolveZ P = (sweepOnce P)^[sweepCount] (initZ P.length) := by
  refine ⟨rfl, fun P => ?_⟩
  simp only [sweepCount, resolveZ, Function.iterate_succ_apply',
    Function.iterate_zero_apply]

/-- Claim C4, original statement refuted: the sweep block is repeated `8`
times in the source, not `7`. -/
theorem resolver_sweep_count_ne_seven : sweepCount ≠ 7 := by
  decide

/-! ### Claim C3: coverage conversion round trip -/

/-- Claim C3 (confirmed): for the nanoparticle model with positive particle
and aperture areas, converting a coverage in `(0, 1000]` to a particle number
and back yields the coverage exactly (over the reals). -/
theorem coverage_roundtrip (s : ICState) (x : ℝ) (hm : s.model = some MType.NP)
    (hp : 0 < s.area_particle) (ha : 0 < s.area_aperture)
    (hx : 0 < x) (hx1000 : x ≤ 1000) :
    (convert_coverage_to_number s x).bind (convert_number_to_coverage s) = some x := by
  simp only [convert_coverage_to_number, convert_number_to_coverage, hm, Option.bind_some]
  field_simp
  ring

/-- Witness for `coverage_roundtrip` at a concrete configuration. -/
theorem coverage_roundtrip_witness :
    (convert_coverage_to_number ⟨some MType.NP, 1, 1, 0, [], [], []⟩ 1).bind
      (convert_number_to_coverage ⟨some MType.NP, 1, 1, 0, [], [], []⟩) = some 1 :=
  coverage_roundtrip _ 1 rfl (by norm_num) (by norm_num) (by norm_num) (by norm_num)

/-! ### Claim C8: the stored measurement after `integrate` -/

/-- Claim C8 (corrected, amended form): after `integrate` returns, the stored
data is the original data restricted to the configured time window — always a
sublist of the original samples, and exactly the original samples when no
window is configured. -/
theorem integrate_window_data (s : ICState) :
    List.Sublist (integrate s).newData s.data ∧
      (s.time = [] → (integrate s).newData = s.data) := by
  constructor
  · show List.Sublist (windowedData s) s.data
    unfold windowedData
    split
    · exact List.Sublist.refl _
    · exact ((List.filter_sublist _).trans (List.filter_sublist _))
  · intro h
    simp [integrate, windowedData, h]

/-- Witness for `integrate_window_data` at a concrete configuration with no
window. -/
theorem integrate_window_data_witness :
    (integrate ⟨some MType.NP, 1, 1, 0, [], [], [((0 : ℝ), (1 : ℝ))]⟩).newData =
      [((0 : ℝ), (1 : ℝ))] :=
  (integrate_window_data ⟨some MType.NP, 1, 1, 0, [], [], [((0 : ℝ), (1 : ℝ))]⟩).2 rfl

/-- Claim C8, original statement refuted: with the time window `[0, 1]`
configured, `integrate` drops the sample at time `2` from the stored data. -/
theorem integrate_mutates_stored_data :
    (integrate ⟨some MType.NP, 1, 1, 0, [], [0, 1], [((0 : ℝ), (0 : ℝ)), (2, 0)]⟩).newData ≠
      [((0 : ℝ), (0 : ℝ)), (2, 0)] := by
  have h : (integrate ⟨some MType.NP, 1, 1, 0, [], [0, 1],
      [((0 : ℝ), (0 : ℝ)), (2, 0)]⟩).newData = [((0 : ℝ), (0 : ℝ))] := by
    norm_num [integrate, windowedData, List.filter_cons, decide_eq_true_eq]
  rw [h]
  simp

/-! ### Claim C2: integral of a constant signal on a uniform grid -/

/-- Unfolding of a uniform grid by its first sample. -/
theorem uniformGrid_succ (t0 dt c : ℝ) (n : ℕ) :
    uniformGrid t0 dt c (n + 1) = (t0, c) :: uniformGrid (t0 + dt) dt c n := by
  simp only [uniformGrid, List.range_succ_eq_map, List.map_cons, List.map_map,
    Nat.cast_zero, zero_mul, add_zero]
  congr 1
  refine List.map_congr_left fun k _ => ?_
  simp only [Function.comp_apply]
  push_cast
  ring_nf

/-- One step of the trapezoid-free sum computed by `integrate`: splitting off
the first sample. -/
theorem pairSum_cons (a b : ℝ × ℝ) (l : List (ℝ × ℝ)) (lk : ℝ) :
    (List.zipWith (fun x y => x * y) ((a :: b :: l).map (fun p => |p.2 + lk|)).tail
      (List.zipWith (fun x y => x - y) ((a :: b :: l).map Prod.fst).tail
        ((a :: b :: l).map Prod.fst))).sum
    = |b.2 + lk| * (b.1 - a.1) +
      (List.zipWith (fun x y => x * y) ((b :: l).map (fun p => |p.2 + lk|)).tail
        (List.zipWith (fun x y => x - y) ((b :: l).map Prod.fst).tail
          ((b :: l).map Prod.fst))).sum := by
  rfl

/-- The sum computed by `integrate` over a uniform constant grid of `n+1`
samples with zero leak current equals `n * (|c| * dt)`. -/
theorem integral_grid_sum (c dt : ℝ) : ∀ (n : ℕ) (t0 : ℝ),
    (List.zipWith (fun x y => x * y)
      ((uniformGrid t0 dt c (n + 1)).map (fun p => |p.2 + 0|)).tail
      (List.zipWith (fun x y => x - y)
        ((uniformGrid t0 dt c (n + 1)).map Prod.fst).tail
        ((uniformGrid t0 dt c (n + 1)).map Prod.fst))).sum = n * (|c| * dt) := by
  intro n
  induction n with
  | zero =>
    intro t0
    simp [uniformGrid, List.range_succ]
  | succ m ih =>
    intro t0
    rw [uniformGrid_succ t0, uniformGrid_succ (t0 + dt), pairSum_cons,
      ← uniformGrid_succ (t0 + dt), ih (t0 + dt)]
    push_cast
    ring

/-- Claim C2 (confirmed): for a constant current `c` on a uniform grid of
`n ≥ 2` samples spaced by `dt`, with zero leak current and no time window,
`integrate` computes the particle count `|c| * dt * (n - 1) / e`. -/
theorem integrate_constant_signal (s : ICState) (c t0 dt : ℝ) (n : ℕ)
    (htime : s.time = []) (hleak : s.leak_current = 0)
    (hdata : s.data = uniformGrid t0 dt c n) (hn : 2 ≤ n) :
    (integrate s).integral = |c| * dt * ((n : ℝ) - 1) / elemCharge := by
  obtain ⟨m, rfl⟩ : ∃ m, n = m + 1 := ⟨n - 1, by omega⟩
  have hw : windowedData s = uniformGrid t0 dt c (m + 1) := by
    simp [windowedData, htime, hdata]
  show integralOf s = _
  unfold integralOf netCurrent
  rw [hw, hleak, integral_grid_sum c dt m t0]
  push_cast
  ring

/-- Witness for `integrate_constant_signal` on a two-sample grid. -/
theorem integrate_constant_signal_witness :
    (integrate ⟨some MType.NP, 1, 1, 0, [], [], uniformGrid 0 1 1 2⟩).integral =
      |(1 : ℝ)| * 1 * (((2 : ℕ) : ℝ) - 1) / elemCharge :=
  integrate_constant_signal _ 1 0 1 2 rfl rfl rfl (by norm_num)

/-! ### Claim C5: the "already exceeded" branch -/

/-- Evaluation of the integral of `stateC5`. -/
theorem stateC5_integral : integralOf stateC5 = 5 := by
  norm_num [integralOf, netCurrent, windowedData, stateC5, elemCharge]
  rw [abs_of_pos (by norm_num : (0 : ℝ) < 1 / 1000)]
  norm_num

/-- Evaluation of the target number of `stateC5`. -/
theorem stateC5_targetNumber : targetNumberOf stateC5 = some 5 := by
  have hpc : presentCoverageOf stateC5 = some 5 := by
    rw [presentCoverageOf, stateC5_integral]
    norm_num [convert_number_to_coverage, stateC5]
  rw [targetNumberOf, hpc]
  dsimp only
  have hsel : selectTarget stateC5.target 5 = 5 := by
    simp [selectTarget, stateC5, List.find?]
  rw [hsel]
  norm_num [convert_coverage_to_number, stateC5]

/-- Claim C5, original statement refuted: in `stateC5`, the particle-count
goal is met (it equals the integral), yet `integrate` takes the remaining-time
branch instead of reporting "already exceeded", because the source compares
with strict `<`. -/
theorem equality_not_reported_exceeded :
    targetNumberOf stateC5 = some 5 ∧ (integrate stateC5).integral = 5 ∧
      (integrate stateC5).report.isExceeded = false := by
  refine ⟨stateC5_targetNumber, stateC5_integral, ?_⟩
  show (reportOf stateC5).isExceeded = false
  have hpc : presentCoverageOf stateC5 = some 5 := by
    rw [presentCoverageOf, stateC5_integral]
    norm_num [convert_number_to_coverage, stateC5]
  rw [reportOf, hpc]
  dsimp only
  have hsel : selectTarget stateC5.target 5 = 5 := by
    simp [selectTarget, stateC5, List.find?]
  have htc : convert_coverage_to_number stateC5 (selectTarget stateC5.target 5) = some 5 := by
    rw [hsel]
    norm_num [convert_coverage_to_number, stateC5]
  rw [htc]
  dsimp only
  rw [stateC5_integral, if_neg (lt_irrefl (5 : ℝ))]
  rfl

/-- Claim C5 (corrected): whenever the integrated particle count *strictly
exceeds* the particle-count goal of the selected target coverage
(`target_number < integral`), the predictor reports "already exceeded" and
never reaches the remaining-time division; at exact equality it takes the
remaining-time branch instead. -/
theorem strictly_exceeded_is_reported (s : ICState) (tn : ℝ)
    (hm : s.model = some MType.NP) (htn : targetNumberOf s = some tn)
    (hlt : tn < (integrate s).integral) :
    (integrate s).report.isExceeded = true := by
  show (reportOf s).isExceeded = true
  have hpc : presentCoverageOf s =
      some (integralOf s * 100 / s.area_aperture * s.area_particle) := by
    simp [presentCoverageOf, convert_number_to_coverage, hm]
  rw [targetNumberOf, hpc] at htn
  dsimp only at htn
  rw [reportOf, hpc]
  dsimp only
  rw [htn]
  dsimp only
  have hlt2 : tn < integralOf s := hlt
  rw [if_pos hlt2]
  rfl

/-- Evaluation of the integral of `stateC5w`. -/
theorem stateC5w_integral : integralOf stateC5w = 10 := by
  norm_num [integralOf, netCurrent, windowedData, stateC5w, elemCharge]
  rw [abs_of_pos (by norm_num : (0 : ℝ) < 1 / 1000)]
  norm_num

/-- Witness for `strictly_exceeded_is_reported` at a concrete configuration
with integral `10` and goal `5`. -/
theorem strictly_exceeded_witness : (integrate stateC5w).report.isExceeded = true := by
  have hpc : presentCoverageOf stateC5w = some 10 := by
    rw [presentCoverageOf, stateC5w_integral]
    norm_num [convert_number_to_coverage, stateC5w]
  have htn : targetNumberOf stateC5w = some 5 := by
    rw [targetNumberOf, hpc]
    dsimp only
    have hsel : selectTarget stateC5w.target 10 = 5 := by
      norm_num [selectTarget, stateC5w, List.find?]
    rw [hsel]
    norm_num [convert_coverage_to_number, stateC5w]
  exact strictly_exceeded_is_reported stateC5w 5 rfl htn
    (by rw [show (integrate stateC5w).integral = integralOf stateC5w from rfl,
      stateC5w_integral]; norm_num)

/-! ### Claim C1: the coverage ratio lies in the unit interval -/

/-- The single-particle area is positive. -/
theorem SApar_pos : 0 < SApar := by
  unfold SApar
  positivity

/-- Each particle's capped loss is nonnegative. -/
theorem lossOf_nonneg (P : List (ℝ × ℝ)) (Z : List ℤ) (i : ℕ) : 0 ≤ lossOf P Z i := by
  unfold lossOf
  dsimp only
  split <;> split <;> first | exact SApar_pos.le | positivity

/-- Each particle's capped loss is at most one particle footprint. -/
theorem lossOf_le_SApar (P : List (ℝ × ℝ)) (Z : List ℤ) (i : ℕ) : lossOf P Z i ≤ SApar := by
  unfold lossOf
  dsimp only
  split <;> split
  · exact le_rfl
  · next h => exact (not_le.mp h).le
  · exact le_rfl
  · next h => exact (not_le.mp h).le

/-- The total lost area is nonnegative. -/
theorem lostArea_nonneg (P : List (ℝ × ℝ)) (Z : List ℤ) : 0 ≤ lostArea P Z := by
  unfold lostArea
  apply List.sum_nonneg
  intro x hx
  obtain ⟨i, _, rfl⟩ := List.mem_map.mp hx
  exact lossOf_nonneg P Z i

/-- The total lost area never exceeds the total available area. -/
theorem lostArea_le_SAtotal (P : List (ℝ × ℝ)) (Z : List ℤ) :
    lostArea P Z ≤ SAtotal P.length := by
  unfold lostArea SAtotal
  calc ((List.range P.length).map (lossOf P Z)).sum
      ≤ ((List.range P.length).map (fun _ => SApar)).sum := by
        apply List.sum_le_sum
        intro i _
        exact lossOf_le_SApar P Z i
    _ = (P.length : ℝ) * SApar := by
        simp [List.map_const', List.sum_replicate, nsmul_eq_mul]

/-- Claim C1 (confirmed): for every particle count `n ≥ 1` and every
configuration of positions and heights, the coverage ratio computed by the
area-loss accounting lies in `[0, 1]`. -/
theorem ratio_mem_unit_interval (P : List (ℝ × ℝ)) (Z : List ℤ) (hP : 1 ≤ P.length) :
    0 ≤ ratioOf P Z ∧ ratioOf P Z ≤ 1 := by
  have hS : 0 < SAtotal P.length := by
    unfold SAtotal
    have : (0 : ℝ) < (P.length : ℝ) := by
      exact_mod_cast Nat.lt_of_lt_of_le Nat.zero_lt_one hP
    exact mul_pos this SApar_pos
  unfold ratioOf
  constructor
  · exact div_nonneg (sub_nonneg.mpr (lostArea_le_SAtotal P Z)) hS.le
  · rw [div_le_one hS]
    linarith [lostArea_nonneg P Z]

/-- Witness for `ratio_mem_unit_interval` on the one-particle configuration. -/
theorem ratio_mem_unit_interval_witness :
    0 ≤ ratioOf [((0 : ℝ), (0 : ℝ))] [1] ∧ ratioOf [((0 : ℝ), (0 : ℝ))] [1] ≤ 1 :=
  ratio_mem_unit_interval [((0 : ℝ), (0 : ℝ))] [1] (by norm_num)

/-! ### Claim C7: one-particle boundary case -/

/-- A relaxation sweep over a single particle changes nothing: the only
selected index is the particle itself, which the inner loop skips. -/
theorem sweepOnce_singleton (p : ℝ × ℝ) (Z : List ℤ) : sweepOnce [p] Z = Z := by
  norm_num [sweepOnce, innerLoop, innerStep, distVec, dSq, List.range_succ,
    Real.sqrt_zero]

/-- Resolution of a single-particle cloud keeps the initial height `1`. -/
theorem resolveZ_singleton (p : ℝ × ℝ) : resolveZ [p] = [1] := by
  simp only [resolveZ, sweepOnce_singleton]
  rfl

/-- The base-layer penalty is strictly below the cap. -/
theorem twelve_lt_SApar : (12 : ℝ) < SApar := by
  unfold SApar
  nlinarith [Real.pi_gt_three]

/-- Lost area of a single particle at height `z`: the base-layer penalty when
`z < 5`, else zero; no contact penalty is accumulated. -/
theorem lostArea_singleton (p : ℝ × ℝ) (z : ℤ) :
    lostArea [p] [z] = if z < 5 then (12 : ℝ) else 0 := by
  unfold lostArea lossOf distVec dSq
  norm_num [List.range_succ, List.filter]
  split
  · intro hc
    exact absurd hc (not_le.mpr twelve_lt_SApar)
  · intro hc
    exact absurd hc (not_le.mpr SApar_pos)

/-- Claim C7 (confirmed): with exactly one particle, resolution keeps the
height at `1`, the total lost area equals exactly the base-layer penalty `12`
(the height stays below the floor `5`), it would be zero at any height at or
above the floor, and no per-neighbor contact penalty is ever accumulated. -/
theorem singleton_lost_area (p : ℝ × ℝ) (z : ℤ) :
    resolveZ [p] = [1] ∧ lostArea [p] (resolveZ [p]) = 12 ∧
      (5 ≤ z → lostArea [p] [z] = 0) ∧ (z < 5 → lostArea [p] [z] = 12) := by
  refine ⟨resolveZ_singleton p, ?_, fun h => ?_, fun h => ?_⟩
  · rw [resolveZ_singleton p, lostArea_singleton p 1]
    norm_num
  · rw [lostArea_singleton, if_neg (not_lt.mpr h)]
  · rw [lostArea_singleton, if_pos h]

/-- Witness for `singleton_lost_area` at height `5`. -/
theorem singleton_lost_area_witness : lostArea [((0 : ℝ), (0 : ℝ))] [5] = 0 :=
  (singleton_lost_area ((0 : ℝ), (0 : ℝ)) 5).2.2.1 (by norm_num)

/-! ### Claim C6: the stacking adjustment truncates -/

/-- Reading an updated entry of a list. -/
theorem getD_set_self {α : Type} (l : List α) (n : ℕ) (a d : α) (h : n < l.length) :
    (l.set n a).getD n d = a := by
  rw [List.getD_eq_getElem?_getD, List.getElem?_set_eq_of_lt a h]
  rfl

/-- Reading an untouched entry of a list. -/
theorem getD_set_ne {α : Type} (l : List α) (n m : ℕ) (a d : α) (h : n ≠ m) :
    (l.set n a).getD m d = l.getD m d := by
  rw [List.getD_eq_getElem?_getD, List.getElem?_set_ne h, ← List.getD_eq_getElem?_getD]

/-- Evaluation of `Real.sqrt 100`. -/
theorem sqrt_hundred : Real.sqrt 100 = 10 := by
  rw [show (100 : ℝ) = 10 ^ 2 by norm_num, Real.sqrt_sq (by norm_num : (0 : ℝ) ≤ 10)]

/-- The floor of `Real.sqrt 1344` is `36`. -/
theorem floor_sqrt_1344 : ⌊Real.sqrt 1344⌋ = 36 := by
  rw [Int.floor_eq_iff]
  constructor
  · rw [show ((36 : ℤ) : ℝ) = 36 by norm_num]
    rw [Real.le_sqrt (by norm_num)] <;> norm_num
  · rw [show ((36 : ℤ) : ℝ) + 1 = 37 by norm_num]
    rw [Real.sqrt_lt' (by norm_num)]
    norm_num

/-- Evaluation of the inner loop on two particles at planar distance `10` with
equal heights `1`: the neighbor's stored height becomes the integer `37`. -/
theorem c6_innerLoop :
    (innerLoop [((0 : ℝ), (0 : ℝ)), (10, 0)] 0 [1, 1]).1 = [1, 37] := by
  have hD : distVec [((0 : ℝ), (0 : ℝ)), (10, 0)] [1, 1] 0 = [0, 10] := by
    norm_num [distVec, dSq, List.range_succ, Real.sqrt_zero, sqrt_hundred]
  unfold innerLoop
  rw [hD]
  norm_num [List.filter_cons, List.range_succ, innerStep, pyTrunc, Psize]
  rw [if_pos (by positivity : (0 : ℝ) ≤ 1 + Real.sqrt 1344)]
  rw [show ((1 : ℝ) + Real.sqrt 1344) = ((1 : ℤ) : ℝ) + Real.sqrt 1344 by norm_num,
    Int.floor_int_add, floor_sqrt_1344]
  rfl

/-- Claim C6, original statement refuted: for two particles at planar distance
`10` and equal heights `1`, the neighbor's stored height after the stacking
adjustment is not the exact real value `1 + sqrt(38^2 - 10^2)`: the int64
array assignment truncates it to `37`. -/
theorem stacking_not_exact :
    (((innerLoop [((0 : ℝ), (0 : ℝ)), (10, 0)] 0 [1, 1]).1.getD 1 0 : ℝ)) ≠
      1 + Real.sqrt 1344 := by
  rw [c6_innerLoop]
  norm_num [List.getD]
  intro h
  have h2 : Real.sqrt 1344 = 36 := by linarith
  have h3 := Real.sq_sqrt (by norm_num : (0 : ℝ) ≤ 1344)
  rw [h2] at h3
  norm_num at h3

/-- Claim C6 (corrected): heights are integers (the height array is an int64
array of ones), and each stacking adjustment stores the synchronized height
plus the `floor` of the square-root term — the exact real value is truncated
by the integer-array assignment.  The second conjunct states the initial
heights are `1`. -/
theorem stacking_adds_floor :
    (∀ (P : List (ℝ × ℝ)) (i : ℕ) (Z : List ℤ) (D args : List ℝ) (g : ℕ),
      g ≠ i → g < Z.length → 0 ≤ Z.getD i 0 → 0 ≤ Z.getD g 0 →
      ((innerStep P i (Z, D, args) g).1).getD g 0 =
        (if Z.getD g 0 = Z.getD i 0 then Z.getD g 0 else Z.getD i 0) +
          ⌊Real.sqrt ((Psize * 10) ^ 2 -
            (((innerStep P i (Z, D, args) g).2.1).getD g 0) ^ 2)⌋) ∧
      ∀ n k : ℕ, k < n → (initZ n).getD k 0 = 1 := by
  constructor
  · intro P i Z D args g hg hlen hzi hzg
    unfold innerStep
    rw [if_neg hg]
    dsimp only
    by_cases hsync : Z.getD g 0 = Z.getD i 0
    · rw [if_neg (not_not_intro hsync), if_neg (not_not_intro hsync), if_pos hsync,
        getD_set_self Z g _ 0 hlen]
      unfold pyTrunc
      rw [if_pos (add_nonneg (by exact_mod_cast hzg) (Real.sqrt_nonneg _)),
        Int.floor_int_add]
    · rw [if_pos hsync, if_pos hsync, if_neg hsync,
        getD_set_self (Z.set g (Z.getD i 0)) g _ 0 (by simpa using hlen),
        getD_set_self Z g _ 0 hlen]
      unfold pyTrunc
      rw [if_pos (add_nonneg (by exact_mod_cast hzi) (Real.sqrt_nonneg _)),
        Int.floor_int_add]
  · intro n k hk
    simp [initZ, List.getD_eq_getElem?_getD, List.getElem?_replicate, hk]

/-- Witness for `stacking_adds_floor` at a concrete adjustment. -/
theorem stacking_adds_floor_witness :
    ((innerStep [((0 : ℝ), (0 : ℝ)), (10, 0)] 0 ([1, 1], [0, 10], []) 1).1).getD 1 0 =
      (if ([1, 1] : List ℤ).getD 1 0 = ([1, 1] : List ℤ).getD 0 0 then
          ([1, 1] : List ℤ).getD 1 0
        else ([1, 1] : List ℤ).getD 0 0) +
        ⌊Real.sqrt ((Psize * 10) ^ 2 -
          (((innerStep [((0 : ℝ), (0 : ℝ)), (10, 0)] 0
            ([1, 1], [0, 10], []) 1).2.1).getD 1 0) ^ 2)⌋ :=
  stacking_adds_floor.1 [((0 : ℝ), (0 : ℝ)), (10, 0)] 0 [1, 1] [0, 10] [] 1
    (by decide) (by decide) (by decide) (by decide)

/-! ### Claim C10: the stacking square-root argument is always positive -/

/-- Squared distances are nonnegative. -/
theorem dSq_nonneg (P : List (ℝ × ℝ)) (Z : List ℤ) (i g : ℕ) : 0 ≤ dSq P Z i g := by
  unfold dSq
  positivity

/-- The squared distance only depends on the heights read at `i` and `g`. -/
theorem dSq_congr (P : List (ℝ × ℝ)) (Z1 Z2 : List ℤ) (i g : ℕ)
    (hi : Z1.getD i 0 = Z2.getD i 0) (hg : Z1.getD g 0 = Z2.getD g 0) :
    dSq P Z1 i g = dSq P Z2 i g := by
  unfold dSq
  rw [hi, hg]

/-- With equal heights at `i` and `g` the squared distance reduces to the
planar part, which bounds every squared distance at the same positions. -/
theorem dSq_height_eq_le (P : List (ℝ × ℝ)) (Z1 Z2 : List ℤ) (i g : ℕ)
    (h : Z1.getD i 0 = Z1.getD g 0) : dSq P Z1 i g ≤ dSq P Z2 i g := by
  unfold dSq
  rw [h]
  have h2 := sq_nonneg ((Z2.getD i 0 : ℝ) - (Z2.getD g 0 : ℝ))
  have h3 : ((Z1.getD g 0 : ℝ) - (Z1.getD g 0 : ℝ)) ^ 2 = 0 := by ring
  rw [h3]
  linarith

/-- Entries of the distance vector. -/
theorem distVec_getD (P : List (ℝ × ℝ)) (Z : List ℤ) (i g : ℕ) :
    (distVec P Z i).getD g 0 =
      if g < P.length then Real.sqrt (dSq P Z i g) else 0 := by
  unfold distVec
  rw [List.getD_eq_getElem?_getD, List.getElem?_map]
  rcases lt_or_ge g P.length with h | h
  · rw [if_pos h, List.getElem?_eq_getElem (by simpa using h), List.getElem_range]
    rfl
  · rw [if_neg (not_lt.mpr h), List.getElem?_eq_none (by simpa using h)]
    rfl

/-- Entries of the distance vector are nonnegative. -/
theorem distVec_getD_nonneg (P : List (ℝ × ℝ)) (Z : List ℤ) (i g : ℕ) :
    0 ≤ (distVec P Z i).getD g 0 := by
  rw [distVec_getD]
  split
  · exact Real.sqrt_nonneg _
  · exact le_rfl

/-- Entries of the distance vector only depend on the heights read at `i` and
the entry index. -/
theorem distVec_getD_congr (P : List (ℝ × ℝ)) (Z1 Z2 : List ℤ) (i g : ℕ)
    (hi : Z1.getD i 0 = Z2.getD i 0) (hg : Z1.getD g 0 = Z2.getD g 0) :
    (distVec P Z1 i).getD g 0 = (distVec P Z2 i).getD g 0 := by
  rw [distVec_getD, distVec_getD, dSq_congr P Z1 Z2 i g hi hg]

/-- A selected index has squared distance below `35 ^ 2`. -/
theorem dSq_lt_of_selected (P : List (ℝ × ℝ)) (Z : List ℤ) (i g : ℕ)
    (hg : g < P.length) (hsel : (distVec P Z i).getD g 0 < 35) :
    dSq P Z i g < 1225 := by
  rw [distVec_getD, if_pos hg] at hsel
  have := (Real.sqrt_lt' (by norm_num : (0 : ℝ) < 35)).mp hsel
  linarith

/-- Invariant of the inner loop: every recorded square-root argument stays
positive, the height at `i` is never modified, and the heights and distance
entries of indices not yet processed keep their initial values. -/
theorem innerFold_args_pos (P : List (ℝ × ℝ)) (i : ℕ) (Z : List ℤ) :
    ∀ (l : List ℕ) (s : List ℤ × List ℝ × List ℝ),
      l.Nodup →
      (∀ g ∈ l, (distVec P Z i).getD g 0 < 35) →
      (∀ a ∈ s.2.2, (0 : ℝ) < a) →
      s.1.getD i 0 = Z.getD i 0 →
      (∀ g ∈ l, s.1.getD g 0 = Z.getD g 0) →
      (∀ g ∈ l, s.2.1.getD g 0 = (distVec P Z i).getD g 0) →
      ∀ a ∈ (List.foldl (innerStep P i) s l).2.2, (0 : ℝ) < a := by
  intro l
  induction l with
  | nil =>
    intro s _ _ hargs _ _ _
    simpa using hargs
  | cons g l' ih =>
    intro s hnd hlt hargs hi hZ hD
    rw [List.foldl_cons]
    have hl'nd : l'.Nodup := (List.nodup_cons.mp hnd).2
    have hgl' : g ∉ l' := (List.nodup_cons.mp hnd).1
    have hlt' : ∀ h ∈ l', (distVec P Z i).getD h 0 < 35 :=
      fun h hm => hlt h (List.mem_cons_of_mem g hm)
    have hglt : (distVec P Z i).getD g 0 < 35 := hlt g (List.mem_cons_self g l')
    by_cases hgi : g = i
    · have hstep : innerStep P i s g = s := by
        unfold innerStep
        rw [if_pos hgi]
      rw [hstep]
      exact ih s hl'nd hlt' hargs hi
        (fun h hm => hZ h (List.mem_cons_of_mem g hm))
        (fun h hm => hD h (List.mem_cons_of_mem g hm))
    · by_cases hsync : s.1.getD g 0 = s.1.getD i 0
      · -- no synchronization: the distance vector is kept
        have hstep : innerStep P i s g =
            (s.1.set g (pyTrunc ((s.1.getD g 0 : ℝ) +
              Real.sqrt ((Psize * 10) ^ 2 - (s.2.1.getD g 0) ^ 2))), s.2.1,
              s.2.2 ++ [(Psize * 10) ^ 2 - (s.2.1.getD g 0) ^ 2]) := by
          unfold innerStep
          rw [if_neg hgi]
          dsimp only
          rw [if_neg (not_not_intro hsync), if_neg (not_not_intro hsync)]
        rw [hstep]
        have hapos : (0 : ℝ) < (Psize * 10) ^ 2 - (s.2.1.getD g 0) ^ 2 := by
          rw [hD g (List.mem_cons_self g l')]
          have h1 := distVec_getD_nonneg P Z i g
          have h38 : ((Psize * 10 : ℝ)) ^ 2 = 1444 := by norm_num [Psize]
          rw [h38]
          nlinarith
        refine ih _ hl'nd hlt' ?_ ?_ ?_ ?_
        · intro a ha
          rcases List.mem_append.mp ha with h | h
          · exact hargs a h
          · rcases List.mem_singleton.mp h with rfl
            exact hapos
        · rw [getD_set_ne s.1 g i _ 0 hgi]
          exact hi
        · intro h hm
          rw [getD_set_ne s.1 g h _ 0 (fun e => hgl' (e ▸ hm))]
          exact hZ h (List.mem_cons_of_mem g hm)
        · intro h hm
          exact hD h (List.mem_cons_of_mem g hm)
      · -- synchronization and recomputation
        have hstep : innerStep P i s g =
            ((s.1.set g (s.1.getD i 0)).set g (pyTrunc
              (((s.1.set g (s.1.getD i 0)).getD g 0 : ℝ) +
                Real.sqrt ((Psize * 10) ^ 2 -
                  ((distVec P (s.1.set g (s.1.getD i 0)) i).getD g 0) ^ 2))),
              distVec P (s.1.set g (s.1.getD i 0)) i,
              s.2.2 ++ [(Psize * 10) ^ 2 -
                ((distVec P (s.1.set g (s.1.getD i 0)) i).getD g 0) ^ 2]) := by
          unfold innerStep
          rw [if_neg hgi]
          dsimp only
          rw [if_pos hsync, if_pos hsync]
        rw [hstep]
        have hZ1i : (s.1.set g (s.1.getD i 0)).getD i 0 = Z.getD i 0 := by
          rw [getD_set_ne s.1 g i _ 0 hgi]
          exact hi
        have hdsq : dSq P (s.1.set g (s.1.getD i 0)) i g ≤ dSq P Z i g := by
          rcases lt_or_ge g s.1.length with hglen | hglen
          · refine dSq_height_eq_le P _ Z i g ?_
            rw [getD_set_ne s.1 g i _ 0 hgi, getD_set_self s.1 g _ 0 hglen]
          · rw [List.set_eq_of_length_le hglen]
            refine le_of_eq (dSq_congr P s.1 Z i g hi (hZ g (List.mem_cons_self g l')))
        have hapos : (0 : ℝ) <
            (Psize * 10) ^ 2 - ((distVec P (s.1.set g (s.1.getD i 0)) i).getD g 0) ^ 2 := by
          rw [distVec_getD]
          have h38 : ((Psize * 10 : ℝ)) ^ 2 = 1444 := by norm_num [Psize]
          split
          · next hglen =>
            rw [Real.sq_sqrt (dSq_nonneg P _ i g), h38]
            have h2 : dSq P Z i g < 1225 := dSq_lt_of_selected P Z i g hglen hglt
            linarith
          · rw [h38]
            norm_num
        refine ih _ hl'nd hlt' ?_ ?_ ?_ ?_
        · intro a ha
          rcases List.mem_append.mp ha with h | h
          · exact hargs a h
          · rcases List.mem_singleton.mp h with rfl
            exact hapos
        · rw [getD_set_ne _ g i _ 0 hgi, getD_set_ne s.1 g i _ 0 hgi]
          exact hi
        · intro h hm
          have hne : g ≠ h := fun e => hgl' (e ▸ hm)
          rw [getD_set_ne _ g h _ 0 hne, getD_set_ne s.1 g h _ 0 hne]
          exact hZ h (List.mem_cons_of_mem g hm)
        · intro h hm
          have hne : g ≠ h := fun e => hgl' (e ▸ hm)
          refine (distVec_getD_congr P _ Z i h hZ1i ?_).trans ?_
          · rw [getD_set_ne s.1 g h _ 0 hne]
            exact hZ h (List.mem_cons_of_mem g hm)
          · rfl

/-- Claim C10 (confirmed): in every relaxation step, for every configuration
of positions and heights, each argument handed to `np.sqrt` by the stacking
update is strictly positive, so no height ever becomes NaN. -/
theorem sqrt_args_pos (P : List (ℝ × ℝ)) (Z : List ℤ) (i : ℕ) :
    List.Forall (fun a => (0 : ℝ) < a) (innerLoop P i Z).2.2 := by
  rw [List.forall_iff_forall_mem]
  unfold innerLoop
  dsimp only
  refine innerFold_args_pos P i Z _ (Z, distVec P Z i, [])
    ((List.nodup_range _).filter _) ?_ (by simp) rfl (fun g _ => rfl) (fun g _ => rfl)
  intro g hg
  have := (List.mem_filter.mp hg).2
  exact of_decide_eq_true this

/-! ### Claim C9: construction of `IntegrateCurrent` and malformed parameters -/

/-- Mapping a float parser over a list of well-formed values succeeds. -/
theorem mapM_parseFloat_isSome (l : List (List Char))
    (h : ∀ p ∈ l, (parseFloat p).isSome = true) :
    (l.mapM parseFloat).isSome = true := by
  induction l with
  | nil => rfl
  | cons a rest ih =>
    obtain ⟨x, hx⟩ := Option.isSome_iff_exists.mp (h a (List.mem_cons_self a rest))
    have hrest := ih (fun p hp => h p (List.mem_cons_of_mem a hp))
    obtain ⟨xs, hxs⟩ := Option.isSome_iff_exists.mp hrest
    rw [List.mapM_cons, hx, hxs]
    rfl

/-- A well-formed item is handled by `applyItem` without raising. -/
theorem applyItem_isSome (cfg : ParsedConfig) (item : List Char)
    (h : wellFormedItem item = true) : (applyItem cfg item).isSome = true := by
  unfold wellFormedItem at h
  unfold applyItem
  cases hps : pySplit '=' item with
  | nil => rw [hps] at h; simp at h
  | cons p t =>
    cases t with
    | nil => rw [hps] at h; simp at h
    | cons v t2 =>
      cases t2 with
      | cons x t3 => rw [hps] at h; simp at h
      | nil =>
        rw [hps] at h
        dsimp only at h ⊢
        by_cases h1 : p = "LEAK_CURRENT".toList
        · simp only [h1] at h
          rw [if_pos (by decide)] at h
          rw [if_pos h1]
          obtain ⟨q1, hq1⟩ := Option.isSome_iff_exists.mp h
          simp [hq1]
        · rw [if_neg h1]
          by_cases h2 : p = "PARTICLE_DIAMETER".toList
          · simp only [h2] at h
            rw [if_pos (by decide)] at h
            rw [if_pos h2]
            obtain ⟨q1, hq1⟩ := Option.isSome_iff_exists.mp h
            simp [hq1]
          · rw [if_neg h2]
            by_cases h3 : p = "APERTURE_DIAMETER".toList
            · simp only [h3] at h
              rw [if_pos (by decide)] at h
              rw [if_pos h3]
              obtain ⟨q1, hq1⟩ := Option.isSome_iff_exists.mp h
              simp [hq1]
            · rw [if_neg h3]
              by_cases h4 : p = "DEBUG".toList
              · simp only [h4] at h
                rw [if_neg (by decide), if_pos (by decide)] at h
                rw [if_pos h4]
                cases hv : v with
                | nil => rw [hv] at h; simp at h
                | cons c cs => simp [parse_bool_string]
              · rw [if_neg h4]
                by_cases h5 : p = "MODEL".toList
                · rw [if_pos h5]
                  by_cases hnp : v = "NP".toList
                  · rw [if_pos hnp]; rfl
                  · rw [if_neg hnp]
                    by_cases hsa : v = "SA".toList
                    · rw [if_pos hsa]; rfl
                    · rw [if_neg hsa]; rfl
                · rw [if_neg h5]
                  by_cases h6 : p = "SA_DENSITY".toList
                  · simp only [h6] at h
                    rw [if_pos (by decide)] at h
                    rw [if_pos h6]
                    obtain ⟨q2, hq2⟩ := Option.isSome_iff_exists.mp h
                    simp [hq2]
                  · rw [if_neg h6]
                    by_cases h7 : p = "TARGET".toList
                    · simp only [h7] at h
                      rw [if_pos (by decide)] at h
                      rw [if_pos h7]
                      obtain ⟨q3, hq3⟩ := Option.isSome_iff_exists.mp h
                      simp [hq3]
                    · rw [if_neg h7]
                      by_cases h8 : p = "TIME".toList
                      · simp only [h8] at h
                        rw [if_neg (by decide), if_neg (by decide)] at h
                        rw [if_pos h8]
                        by_cases hemp : (stripBrack v).isEmpty
                        · rw [if_pos hemp]
                          rfl
                        · rw [Bool.not_eq_true] at hemp
                          rw [hemp] at h
                          simp only [Bool.false_or] at h
                          rw [if_neg (by rw [hemp]; exact Bool.false_ne_true)]
                          have hall := mapM_parseFloat_isSome (pySplit ',' (stripBrack v))
                            (fun q hq => List.all_eq_true.mp h q hq)
                          obtain ⟨xs, hxs⟩ := Option.isSome_iff_exists.mp hall
                          rw [hxs]
                          rfl
                      · rw [if_neg h8]
                        rfl

/-- Folding `applyItem` over a list of well-formed items never raises. -/
theorem foldlM_applyItem_isSome (l : List (List Char)) (cfg : ParsedConfig)
    (h : ∀ item ∈ l, wellFormedItem item = true) :
    (l.foldlM applyItem cfg).isSome = true := by
  induction l generalizing cfg with
  | nil => rfl
  | cons a rest ih =>
    obtain ⟨c2, hc2⟩ := Option.isSome_iff_exists.mp
      (applyItem_isSome cfg a (h a (List.mem_cons_self a rest)))
    rw [List.foldlM_cons, hc2]
    exact ih c2 (fun i hi => h i (List.mem_cons_of_mem a hi))

/-- Claim C9 (corrected): construction of `IntegrateCurrent` completes without a
hard failure provided every `key=value` item of the parameter string is
well-formed: it splits on `'='` into exactly two parts and its value parses
where the key demands it.  Unrecognized keys and unknown `MODEL` values are
indeed only printed and ignored, but an item without `'='` (line 44) or a
malformed numeric value (e.g. `float(value)` on line 46) raises, so the
spec's unconditional "never raises" is false. -/
theorem initIC_isSome (s : List Char)
    (h : ∀ item ∈ pySplit ';' (stripChar ';' s), wellFormedItem item = true) :
    (initIC s).isSome = true :=
  foldlM_applyItem_isSome _ {} h

/-- Witness for `initIC_isSome` at the parameter string
`MODEL=NP;LEAK_CURRENT=2.5`, whose items are all well-formed. -/
theorem initIC_isSome_witness :
    (∀ item ∈ pySplit ';' (stripChar ';' ("MODEL=NP;LEAK_CURRENT=2.5".toList)),
      wellFormedItem item = true) ∧
    (initIC ("MODEL=NP;LEAK_CURRENT=2.5".toList)).isSome = true :=
  ⟨by decide, initIC_isSome ("MODEL=NP;LEAK_CURRENT=2.5".toList) (by decide)⟩

/-- Counterexample to claim C9 as stated: the recognized key `LEAK_CURRENT`
with the non-numeric value `abc` makes `float(value)` (line 46) raise a
`ValueError`, so construction does not run to completion. -/
theorem initIC_raises_on_malformed_value :
    initIC ("LEAK_CURRENT=abc".toList) = none := by
  rfl
